import Mathlib

/-!
Verification of the cryptographic core of the kzg-ceremony-coordinator
repository (BLS12-381 powers-of-tau ceremony).

The prime-order subgroups G1 and G2 of BLS12-381 both have prime order
r, and the pairing is a non-degenerate bilinear map into a cyclic group
of order r.  All operations of the contribution/verification layer are
linear in the group elements, so we embed both subgroups and the pairing
target in discrete-logarithm form: a point is represented by its
discrete logarithm with respect to the group generator, an element of
ZMod r.  Point addition becomes addition, scalar multiplication by a
field element s becomes multiplication by s, the generator is 1, the
identity is 0, and pairing equalities hold exactly when the products of
the discrete logarithms agree (non-degeneracy).

The subgroup-check layer (src/src/subgroup_check.rs) additionally uses
the GLV/cubic endomorphism psi(x, y) = (BETA * x, y).  On the
prime-order subgroup psi acts as multiplication by the eigenvalue
-G1_LAMBDA_2 mod r (with G1_LAMBDA_2 = X^2 for the BLS parameter X);
this is the defining property of the BETA constant and is asserted by
the repository's own test test_g1_endomorphism.  The point-decoding
layer (src/src/lib.rs) works with actual base-field coordinates, which
we embed concretely over ZMod q.
-/

namespace KZG

/-- Order of the BLS12-381 prime-order subgroups (the Fr modulus). -/
def rN : ℕ := 0x73eda753299d7d483339d80809a1d80553bda402fffe5bfeffffffff00000001

/-- The BLS12-381 base-field modulus (the Fq modulus). -/
def qN : ℕ :=
  0x1a0111ea397fe69a4b1ba7b6434bacd764774b84f38512bf6730d2a0f6b0f6241eabfffeb153ffffb9feffffffffaaab

/-- The (absolute value of the) BLS parameter, `Parameters::X = &[0xd201000000010000]`
in src/src/subgroup_check.rs. -/
def blsX : ℕ := 0xd201000000010000

/-- `G1_LAMBDA_2 = [0x0000000100000000, 0xac45a4010001a402]` (little-endian u64
limbs) from src/src/subgroup_check.rs; numerically this equals `blsX ^ 2`. -/
def lambda2 : ℕ := 0xac45a4010001a402 * 2 ^ 64 + 0x0000000100000000

instance : NeZero rN := ⟨by norm_num [rN]⟩

instance : NeZero qN := ⟨by norm_num [qN]⟩

/-- The scalar field Fr of BLS12-381. -/
abbrev Fr : Type := ZMod rN

/-- Discrete-logarithm model of the G1 prime-order subgroup. -/
abbrev G1 : Type := ZMod rN

/-- Discrete-logarithm model of the G2 prime-order subgroup. -/
abbrev G2 : Type := ZMod rN

/-- Discrete-logarithm model of the pairing target group. -/
abbrev GT : Type := ZMod rN

/-- The G1 generator in discrete-logarithm form. -/
def g1_gen : G1 := 1

/-- The G2 generator in discrete-logarithm form. -/
def g2_gen : G2 := 1

/-- The BLS12-381 pairing in discrete-logarithm form: by bilinearity and
non-degeneracy, `e([a]G1, [b]G2) = e(G1, G2)^(a*b)`, and two pairings agree
exactly when the exponents agree in ZMod r. -/
def pairing (a : G1) (b : G2) : GT := a * b

/-- `g1_endomorphism` of src/src/subgroup_check.rs, restricted to the
prime-order subgroup in discrete-logarithm form.  On coordinates it is
`(x, y) = (BETA * x, y)`; on the subgroup it acts as multiplication by
the eigenvalue `-G1_LAMBDA_2`, the property asserted by the repository
test `test_g1_endomorphism` (`g1_endomorphism(x) == -[G1_LAMBDA_2] x`). -/
def g1_endomorphism (p : G1) : G1 := -((lambda2 : Fr) * p)

/-- `g1_split` of src/src/subgroup_check.rs: interpret the scalar as its
canonical integer representative (`tau.into_repr()`), divide by the
128-bit constant `G1_LAMBDA_2` with `ruint::algorithms::div_rem`, and
return the remainder (`k0`, read back from the first two limbs of the
divisor buffer) and the quotient (`k1`, read back from the first two
limbs of the numerator buffer).  Reading only two u64 limbs truncates
both values modulo 2^128. -/
def g1_split (tau : Fr) : ℕ × ℕ :=
  ((tau.val % lambda2) % 2 ^ 128, (tau.val / lambda2) % 2 ^ 128)

/-- The loop of `g1_mul_glv`: starting from the given bit position and
walking down to bit 0, add `p` when the bit of `k0` is set, add `q` when
the bit of `k1` is set, and double the accumulator between consecutive
bit positions (the source doubles after the shift unless the loop ends). -/
def glvLoop (p q : G1) (k0 k1 : ℕ) : ℕ → G1 → G1
  | 0, res =>
      let r1 := if k0.testBit 0 then res + p else res
      if k1.testBit 0 then r1 + q else r1
  | i + 1, res =>
      let r1 := if k0.testBit (i + 1) then res + p else res
      let r2 := if k1.testBit (i + 1) then r1 + q else r1
      glvLoop p q k0 k1 i (r2 + r2)

/-- Binary logarithm with explicit fuel (the argument is a u128 in the
source, so 128 steps always suffice); agrees with `Nat.log2` below. -/
def log2w : ℕ → ℕ → ℕ
  | 0, _ => 0
  | f + 1, n => if 2 ≤ n then log2w f (n / 2) + 1 else 0

/-- `g1_mul_glv` of src/src/subgroup_check.rs: split the scalar with
`g1_split`, return zero when both halves are zero, otherwise run the
double-and-add loop from the highest set bit of `k0 | k1`
(`127 - (k0 | k1).leading_zeros()`, the base-2 logarithm of a nonzero
u128), with `q = g1_endomorphism(p).neg()`. -/
def g1_mul_glv (p : G1) (tau : Fr) : G1 :=
  let s := g1_split tau
  if s.1 ||| s.2 = 0 then 0
  else
    let q := -(g1_endomorphism p)
    glvLoop p q s.1 s.2 (log2w 128 (s.1 ||| s.2)) 0

end KZG

namespace KZG

/-- The contribution data model of src/crypto/src/contribution.rs, with
curve points in discrete-logarithm form (parametric in the point types
so that the JSON parsing layer can be stated for arbitrary decoders). -/
structure Contribution (P1 P2 : Type) where
  pubkey : P2
  g1_powers : List P1
  g2_powers : List P2
deriving DecidableEq

/-- The transcript data model of src/crypto/src/contribution.rs. -/
structure Transcript where
  g1_powers : List G1
  g2_powers : List G2
  products : List G1
  pubkeys : List G2
deriving DecidableEq

/-- The loop of `Contribution::pow_table`: repeatedly multiply the
accumulator by tau and push the result. -/
def powTableGo (tau : Fr) : ℕ → Fr → List Fr
  | 0, _ => []
  | k + 1, pow =>
      let pow2 := pow * tau
      pow2 :: powTableGo tau k pow2

/-- `Contribution::pow_table` of src/crypto/src/contribution.rs: push
`tau^0 = 1`, then iterate `pow_tau *= tau; push` for `1..n` (so the
result has length `n` for positive `n`, and length 1 when `n = 0`). -/
def Contribution.pow_table (tau : Fr) (n : ℕ) : List Fr :=
  1 :: powTableGo tau (n - 1) 1

/-- `Contribution::mul_g1` of src/crypto/src/contribution.rs: multiply
each element of `g1_powers` by the matching scalar using `g1_mul_glv`.
The final `batch_normalization_into_affine` pass only converts the
projective representation back to affine and is the identity on the
underlying group elements. -/
def Contribution.mul_g1 (c : Contribution G1 G2) (scalars : List Fr) : Contribution G1 G2 :=
  { c with g1_powers := List.zipWith (fun p pow_tau => g1_mul_glv p pow_tau) c.g1_powers scalars }

/-- `Contribution::mul_g2` of src/crypto/src/contribution.rs: multiply
each element of `g2_powers` by the matching scalar using ordinary
scalar multiplication. -/
def Contribution.mul_g2 (c : Contribution G1 G2) (scalars : List Fr) : Contribution G1 G2 :=
  { c with g2_powers := List.zipWith (fun p pow_tau => pow_tau * p) c.g2_powers scalars }

/-- `Contribution::add_tau` of src/crypto/src/contribution.rs: build the
power table of length `max(len g1, len g2)`, multiply both power vectors
elementwise by the corresponding slice, and multiply the public key by
tau. -/
def Contribution.add_tau (c : Contribution G1 G2) (tau : Fr) : Contribution G1 G2 :=
  let n_tau := max c.g1_powers.length c.g2_powers.length
  let powers := Contribution.pow_table tau n_tau
  let c1 := c.mul_g1 (powers.take c.g1_powers.length)
  let c2 := c1.mul_g2 (powers.take c.g2_powers.length)
  { c2 with pubkey := tau * c2.pubkey }

/-- `BatchPairingCheck` of src/src/pairing_check.rs in discrete-logarithm
form: two running pairs of projective sums. -/
structure BatchPairingCheck where
  lhs : G1 × G2
  rhs : G1 × G2
deriving DecidableEq

/-- `BatchPairingCheck::new` of src/src/pairing_check.rs: both running
pairs start at `(G1 prime_subgroup_generator, G2 prime_subgroup_generator)`. -/
def BatchPairingCheck.new : BatchPairingCheck :=
  ⟨(g1_gen, g2_gen), (g1_gen, g2_gen)⟩

/-- `BatchPairingCheck::add_check` of src/src/pairing_check.rs,
parameterised by the sampled random factor: the factor multiplies BOTH
components of each pair before they are accumulated
(`lhs.0 += lhs.0.mul(factor); lhs.1 += lhs.1.mul(factor)`, same for rhs). -/
def BatchPairingCheck.add_check (st : BatchPairingCheck) (l r : G1 × G2) (factor : Fr) :
    BatchPairingCheck :=
  ⟨(st.lhs.1 + factor * l.1, st.lhs.2 + factor * l.2),
   (st.rhs.1 + factor * r.1, st.rhs.2 + factor * r.2)⟩

/-- `BatchPairingCheck::merge` of src/src/pairing_check.rs: add the
running sums componentwise. -/
def BatchPairingCheck.merge (st other : BatchPairingCheck) : BatchPairingCheck :=
  ⟨(st.lhs.1 + other.lhs.1, st.lhs.2 + other.lhs.2),
   (st.rhs.1 + other.rhs.1, st.rhs.2 + other.rhs.2)⟩

/-- `BatchPairingCheck::check` of src/src/pairing_check.rs: compare the
pairings of the two accumulated pairs. -/
def BatchPairingCheck.check (st : BatchPairingCheck) : Bool :=
  decide (pairing st.lhs.1 st.lhs.2 = pairing st.rhs.1 st.rhs.2)

/-- `VariableBaseMSM::multi_scalar_mul` in discrete-logarithm form: the
random linear combination of the bases by the scalars (excess entries of
either list are ignored, as in the zip-based implementation). -/
def msm (bases : List G1) (scalars : List Fr) : G1 :=
  (List.zipWith (fun b s => s * b) bases scalars).sum

/-- `Contribution::verify_pubkey` of src/crypto/src/contribution.rs:
the pairing equality `e(g1_powers[1], G2 generator) = e(prev_product, pubkey)`
(the source asserts it and panics on failure; we return the Boolean). -/
def Contribution.verify_pubkey (c : Contribution G1 G2) (prev_product : G1) : Bool :=
  decide (pairing (c.g1_powers.getD 1 0) g2_gen = pairing prev_product c.pubkey)

/-- `Contribution::verify_g1` of src/crypto/src/contribution.rs,
parameterised by the sampled random factors (`random_factors` draws
`len(g1_powers) - 1` uniformly random scalars and also returns their
sum): check
`e(msm(g1_powers[1..], factors), [sum] G2 generator)
  = e(msm(g1_powers[..factors.len()], factors), [sum] g2_powers[1])`. -/
def Contribution.verify_g1 (c : Contribution G1 G2) (factors : List Fr) : Bool :=
  let sum := factors.sum
  decide (pairing (msm (c.g1_powers.drop 1) factors) (sum * g2_gen) =
    pairing (msm (c.g1_powers.take factors.length) factors) (sum * c.g2_powers.getD 1 0))

/-- `Contribution::verify_g2` of src/crypto/src/contribution.rs,
parameterised by the sampled random factors (`random_factors` draws
`len(g2_powers)` of them). -/
def Contribution.verify_g2 (c : Contribution G1 G2) (factors : List Fr) : Bool :=
  let sum := factors.sum
  decide (pairing (msm (c.g1_powers.take factors.length) factors) (sum * g2_gen) =
    pairing (sum * g1_gen) (msm c.g2_powers factors))

/-- `Contribution::verify` of src/crypto/src/contribution.rs: assert the
power counts match the transcript, then run the pubkey, G1 and G2
consistency checks (each an assert; a panic is modelled as `false`).
The two lists are the random factors drawn by `verify_g1` and
`verify_g2` respectively. -/
def Contribution.verify (c : Contribution G1 G2) (t : Transcript) (f1 f2 : List Fr) : Bool :=
  decide (c.g1_powers.length = t.g1_powers.length) &&
  decide (c.g2_powers.length = t.g2_powers.length) &&
  c.verify_pubkey (t.products.getLastD 0) &&
  c.verify_g1 f1 &&
  c.verify_g2 f2


lemma mod_two_eq_testBit (k : ℕ) : k % 2 = if k.testBit 0 = true then 1 else 0 := by
  rw [Nat.testBit_to_div_mod]
  simp only [pow_zero, Nat.div_one]
  rcases Nat.mod_two_eq_zero_or_one k with h | h <;> simp [h]

lemma natCast_testBit_split (k : ℕ) (i : ℕ) :
    ((k % 2 ^ (i + 2) : ℕ) : Fr) =
      ((k % 2 ^ (i + 1) : ℕ) : Fr) + (if k.testBit (i + 1) = true then (2 ^ (i + 1) : Fr) else 0) := by
  have hmod : k % 2 ^ (i + 2) = k % 2 ^ (i + 1) + 2 ^ (i + 1) * (k / 2 ^ (i + 1) % 2) := by
    rw [pow_succ]
    exact Nat.mod_mul
  by_cases hb : k.testBit (i + 1) = true
  · have h2 : k / 2 ^ (i + 1) % 2 = 1 := by
      rw [Nat.testBit_to_div_mod] at hb
      simpa using hb
    rw [hmod, h2, if_pos hb]
    push_cast
    ring
  · have h2 : k / 2 ^ (i + 1) % 2 = 0 := by
      rw [Nat.testBit_to_div_mod] at hb
      simp only [decide_eq_true_eq] at hb
      omega
    rw [hmod, h2, if_neg hb]
    push_cast
    ring

lemma glvLoop_spec (p q : G1) (k0 k1 : ℕ) :
    ∀ (i : ℕ) (res : G1), glvLoop p q k0 k1 i res =
      (2 ^ i : Fr) * res + ((k0 % 2 ^ (i + 1) : ℕ) : Fr) * p + ((k1 % 2 ^ (i + 1) : ℕ) : Fr) * q := by
  intro i
  induction i with
  | zero =>
      intro res
      have c0 : ((k0 % 2 : ℕ) : Fr) = if k0.testBit 0 = true then 1 else 0 := by
        rw [mod_two_eq_testBit k0]
        split <;> simp
      have c1 : ((k1 % 2 : ℕ) : Fr) = if k1.testBit 0 = true then 1 else 0 := by
        rw [mod_two_eq_testBit k1]
        split <;> simp
      by_cases h0 : k0.testBit 0 = true <;> by_cases h1 : k1.testBit 0 = true <;>
        simp [glvLoop, h0, h1, c0, c1]
  | succ i ih =>
      intro res
      simp only [glvLoop]
      rw [ih, natCast_testBit_split k0 i, natCast_testBit_split k1 i]
      by_cases h0 : k0.testBit (i + 1) = true <;> by_cases h1 : k1.testBit (i + 1) = true <;>
        simp only [h0, h1, if_true, if_false, ite_true, ite_false] <;> push_cast <;> ring

lemma log2w_eq : ∀ (f n : ℕ), n < 2 ^ f → log2w f n = Nat.log2 n := by
  intro f
  induction f with
  | zero =>
      intro n hn
      interval_cases n
      simp [log2w, Nat.log2]
  | succ f ih =>
      intro n hn
      rw [log2w]
      unfold Nat.log2
      by_cases h2 : 2 ≤ n
      · have hd : n / 2 < 2 ^ f := by
          rw [Nat.div_lt_iff_lt_mul (by norm_num)]
          rw [pow_succ] at hn
          exact hn
        rw [if_pos h2, if_pos h2, ih (n / 2) hd]
      · rw [if_neg h2, if_neg h2]

lemma left_le_or (a b : ℕ) : a ≤ a ||| b :=
  Nat.le_of_testBit fun i h => by simp [Nat.testBit_or, h]

lemma right_le_or (a b : ℕ) : b ≤ a ||| b :=
  Nat.le_of_testBit fun i h => by simp [Nat.testBit_or, h]

lemma g1_split_fst (tau : Fr) : (g1_split tau).1 = tau.val % lambda2 := by
  have h : tau.val % lambda2 < 2 ^ 128 := by
    have h1 : tau.val % lambda2 < lambda2 := Nat.mod_lt _ (by norm_num [lambda2])
    have h2 : lambda2 < 2 ^ 128 := by norm_num [lambda2]
    omega
  have hfst : (g1_split tau).1 = (tau.val % lambda2) % 2 ^ 128 := rfl
  rw [hfst]
  exact Nat.mod_eq_of_lt h

lemma g1_split_snd (tau : Fr) : (g1_split tau).2 = tau.val / lambda2 := by
  have h : tau.val / lambda2 < 2 ^ 128 := by
    rw [Nat.div_lt_iff_lt_mul (by norm_num [lambda2])]
    calc tau.val < rN := tau.val_lt
    _ ≤ 2 ^ 128 * lambda2 := by norm_num [rN, lambda2]
  have hsnd : (g1_split tau).2 = (tau.val / lambda2) % 2 ^ 128 := rfl
  rw [hsnd]
  exact Nat.mod_eq_of_lt h

lemma g1_split_add (tau : Fr) : (g1_split tau).1 + (g1_split tau).2 * lambda2 = tau.val := by
  rw [g1_split_fst, g1_split_snd, mul_comm]
  exact Nat.mod_add_div tau.val lambda2

lemma g1_split_cast (tau : Fr) :
    ((g1_split tau).1 : Fr) + ((g1_split tau).2 : Fr) * (lambda2 : Fr) = tau := by
  have hval := g1_split_add tau
  calc ((g1_split tau).1 : Fr) + ((g1_split tau).2 : Fr) * (lambda2 : Fr)
      = (((g1_split tau).1 + (g1_split tau).2 * lambda2 : ℕ) : Fr) := by push_cast; ring
    _ = ((tau.val : ℕ) : Fr) := by rw [hval]
    _ = tau := ZMod.natCast_rightInverse tau

/-- Key algebraic fact: the GLV multiplication routine computes ordinary
scalar multiplication in the discrete-logarithm model. -/
lemma g1_mul_glv_eq (p : G1) (tau : Fr) : g1_mul_glv p tau = tau * p := by
  have hq : -(g1_endomorphism p) = (lambda2 : Fr) * p := by
    simp [g1_endomorphism]
  by_cases h0 : (g1_split tau).1 ||| (g1_split tau).2 = 0
  · have hk0 : (g1_split tau).1 = 0 :=
      Nat.le_zero.mp (h0 ▸ left_le_or (g1_split tau).1 (g1_split tau).2)
    have hk1 : (g1_split tau).2 = 0 :=
      Nat.le_zero.mp (h0 ▸ right_le_or (g1_split tau).1 (g1_split tau).2)
    have hval : tau.val = 0 := by
      have h := g1_split_add tau
      rw [hk0, hk1] at h
      simpa using h.symm
    have htau : tau = 0 := (ZMod.val_eq_zero tau).mp hval
    subst htau
    simp [g1_mul_glv, h0]
  · have hb0 : (g1_split tau).1 < 2 ^ 128 := Nat.mod_lt _ (by norm_num)
    have hb1 : (g1_split tau).2 < 2 ^ 128 := Nat.mod_lt _ (by norm_num)
    have hor : (g1_split tau).1 ||| (g1_split tau).2 < 2 ^ 128 :=
      Nat.or_lt_two_pow hb0 hb1
    have hlw : log2w 128 ((g1_split tau).1 ||| (g1_split tau).2) =
        Nat.log2 ((g1_split tau).1 ||| (g1_split tau).2) := log2w_eq 128 _ hor
    have hlt : (g1_split tau).1 ||| (g1_split tau).2 <
        2 ^ (log2w 128 ((g1_split tau).1 ||| (g1_split tau).2) + 1) := by
      rw [hlw]
      exact Nat.lt_log2_self
    have hm0 : (g1_split tau).1 % 2 ^ (log2w 128 ((g1_split tau).1 ||| (g1_split tau).2) + 1) =
        (g1_split tau).1 :=
      Nat.mod_eq_of_lt (Nat.lt_of_le_of_lt (left_le_or _ _) hlt)
    have hm1 : (g1_split tau).2 % 2 ^ (log2w 128 ((g1_split tau).1 ||| (g1_split tau).2) + 1) =
        (g1_split tau).2 :=
      Nat.mod_eq_of_lt (Nat.lt_of_le_of_lt (right_le_or _ _) hlt)
    have hcast := g1_split_cast tau
    simp only [g1_mul_glv, h0, if_false, hq]
    rw [glvLoop_spec, hm0, hm1]
    rw [mul_zero, zero_add]
    calc ((g1_split tau).1 : Fr) * p + ((g1_split tau).2 : Fr) * ((lambda2 : Fr) * p)
        = ((((g1_split tau).1 : Fr)) + ((g1_split tau).2 : Fr) * (lambda2 : Fr)) * p := by ring
      _ = tau * p := by rw [hcast]


/-- C1: for every point P of the G1 prime-order subgroup (discrete-log
model) and every scalar s, the optimized GLV multiplication
`g1_mul_glv(P, s)` equals ordinary scalar multiplication by s; the split
`g1_split(s) = (k0, k1)` satisfies `k0 + k1 * lambda = s` in the scalar
field (lambda = G1_LAMBDA_2), and `[s]P = [k0]P + [k1] psi(-P)` for the
endomorphism psi. -/
theorem C1_glv_mul_correct (P : G1) (s : Fr) :
    (((g1_split s).1 : Fr) + ((g1_split s).2 : Fr) * (lambda2 : Fr) = s) ∧
    g1_mul_glv P s = s * P ∧
    s * P = ((g1_split s).1 : Fr) * P + ((g1_split s).2 : Fr) * g1_endomorphism (-P) := by
  refine ⟨g1_split_cast s, g1_mul_glv_eq P s, ?_⟩
  have he : g1_endomorphism (-P) = (lambda2 : Fr) * P := by
    simp [g1_endomorphism]
  have h := g1_split_cast s
  rw [he]
  calc s * P = (((g1_split s).1 : Fr) + ((g1_split s).2 : Fr) * (lambda2 : Fr)) * P := by rw [h]
    _ = ((g1_split s).1 : Fr) * P + ((g1_split s).2 : Fr) * ((lambda2 : Fr) * P) := by ring


lemma powTableGo_length (tau : Fr) : ∀ (k : ℕ) (pow : Fr), (powTableGo tau k pow).length = k := by
  intro k
  induction k with
  | zero => intro pow; simp [powTableGo]
  | succ k ih => intro pow; simp [powTableGo, ih]

lemma pow_table_length (tau : Fr) (n : ℕ) :
    (Contribution.pow_table tau n).length = max n 1 := by
  simp only [Contribution.pow_table, List.length_cons, powTableGo_length]
  omega

lemma powTableGo_getD (tau : Fr) :
    ∀ (k : ℕ) (pow : Fr) (i : ℕ), i < k →
      (powTableGo tau k pow).getD i 0 = pow * tau ^ (i + 1) := by
  intro k
  induction k with
  | zero => intro pow i h; omega
  | succ k ih =>
      intro pow i h
      cases i with
      | zero => simp [powTableGo]
      | succ i =>
          have hi : i < k := by omega
          simp only [powTableGo, List.getD_cons_succ]
          rw [ih (pow * tau) i hi]
          ring

lemma pow_table_getD (tau : Fr) (n : ℕ) (i : ℕ) (h : i < max n 1) :
    (Contribution.pow_table tau n).getD i 0 = tau ^ i := by
  cases i with
  | zero => simp [Contribution.pow_table]
  | succ i =>
      have hi : i < n - 1 := by omega
      simp only [Contribution.pow_table, List.getD_cons_succ]
      rw [powTableGo_getD tau (n - 1) 1 i hi]
      ring

lemma zipWith_getD {α β γ : Type} (f : α → β → γ) (da : α) (db : β) (dc : γ) :
    ∀ (l1 : List α) (l2 : List β) (i : ℕ), i < l1.length → i < l2.length →
      (List.zipWith f l1 l2).getD i dc = f (l1.getD i da) (l2.getD i db) := by
  intro l1
  induction l1 with
  | nil => intro l2 i h1 h2; simp at h1
  | cons a l ih =>
      intro l2 i h1 h2
      cases l2 with
      | nil => simp at h2
      | cons b l2 =>
          cases i with
          | zero => simp
          | succ i =>
              simp only [List.zipWith_cons_cons, List.getD_cons_succ]
              exact ih l2 i (by simpa using h1) (by simpa using h2)

lemma getD_take {α : Type} (d : α) :
    ∀ (l : List α) (n i : ℕ), i < n → (l.take n).getD i d = l.getD i d := by
  intro l
  induction l with
  | nil => intro n i h; simp
  | cons a l ih =>
      intro n i h
      cases n with
      | zero => omega
      | succ n =>
          cases i with
          | zero => simp
          | succ i =>
              simp only [List.take_succ_cons, List.getD_cons_succ]
              exact ih n i (by omega)


lemma add_tau_form (c : Contribution G1 G2) (tau : Fr) :
    c.add_tau tau =
      ⟨tau * c.pubkey,
       List.zipWith (fun p pow_tau => g1_mul_glv p pow_tau) c.g1_powers
         ((Contribution.pow_table tau (max c.g1_powers.length c.g2_powers.length)).take
           c.g1_powers.length),
       List.zipWith (fun p pow_tau => pow_tau * p) c.g2_powers
         ((Contribution.pow_table tau (max c.g1_powers.length c.g2_powers.length)).take
           c.g2_powers.length)⟩ := rfl

/-- C2: after `add_tau(tau)`, every `g1_powers[i]` is multiplied by
`tau^i`, every `g2_powers[i]` is multiplied by `tau^i`, the public key
is multiplied by `tau`, and the lengths of both power vectors are
unchanged. -/
theorem C2_add_tau_spec (c : Contribution G1 G2) (tau : Fr) :
    (c.add_tau tau).g1_powers.length = c.g1_powers.length ∧
    (c.add_tau tau).g2_powers.length = c.g2_powers.length ∧
    (∀ i, i < c.g1_powers.length →
      (c.add_tau tau).g1_powers.getD i 0 = tau ^ i * c.g1_powers.getD i 0) ∧
    (∀ i, i < c.g2_powers.length →
      (c.add_tau tau).g2_powers.getD i 0 = tau ^ i * c.g2_powers.getD i 0) ∧
    (c.add_tau tau).pubkey = tau * c.pubkey := by
  have hptlen := pow_table_length tau (max c.g1_powers.length c.g2_powers.length)
  refine ⟨?_, ?_, ?_, ?_, ?_⟩
  · rw [add_tau_form]
    simp only [List.length_zipWith, List.length_take, hptlen]
    omega
  · rw [add_tau_form]
    simp only [List.length_zipWith, List.length_take, hptlen]
    omega
  · intro i hi
    have hle : c.g1_powers.length ≤ max (max c.g1_powers.length c.g2_powers.length) 1 := by omega
    have hi2 : i < ((Contribution.pow_table tau
        (max c.g1_powers.length c.g2_powers.length)).take c.g1_powers.length).length := by
      simp only [List.length_take, hptlen]
      omega
    rw [add_tau_form]
    show (List.zipWith (fun p pow_tau => g1_mul_glv p pow_tau) c.g1_powers _).getD i 0 = _
    rw [zipWith_getD (fun p pow_tau => g1_mul_glv p pow_tau) 0 0 0 c.g1_powers _ i hi hi2]
    rw [getD_take 0 _ c.g1_powers.length i hi]
    rw [pow_table_getD tau _ i (by omega)]
    rw [g1_mul_glv_eq]
  · intro i hi
    have hle : c.g2_powers.length ≤ max (max c.g1_powers.length c.g2_powers.length) 1 := by omega
    have hi2 : i < ((Contribution.pow_table tau
        (max c.g1_powers.length c.g2_powers.length)).take c.g2_powers.length).length := by
      simp only [List.length_take, hptlen]
      omega
    rw [add_tau_form]
    show (List.zipWith (fun p pow_tau => pow_tau * p) c.g2_powers _).getD i 0 = _
    rw [zipWith_getD (fun p pow_tau => pow_tau * p) 0 0 0 c.g2_powers _ i hi hi2]
    rw [getD_take 0 _ c.g2_powers.length i hi]
    rw [pow_table_getD tau _ i (by omega)]
  · rw [add_tau_form]

/-- Witness for C2 at a concrete contribution. -/
theorem C2_add_tau_spec_witness :
    (Contribution.add_tau ⟨5, [7, 7], [11]⟩ 3).g1_powers.getD 1 0 = 3 ^ 1 * 7 :=
  (C2_add_tau_spec ⟨5, [7, 7], [11]⟩ 3).2.2.1 1 (by decide)


/-- C3: with matching power-vector lengths and at least two G1 powers,
the pubkey-consistency step succeeds exactly when
`e(C.g1_powers[1], G2 generator) = e(T.products.last(), C.pubkey)`, and
the whole verification fails whenever this pairing equality fails
(whatever random factors the two batched checks draw). -/
theorem C3_verify_pubkey_spec (c : Contribution G1 G2) (t : Transcript) (f1 f2 : List Fr)
    (hlen1 : c.g1_powers.length = t.g1_powers.length)
    (hlen2 : c.g2_powers.length = t.g2_powers.length)
    (htwo : 2 ≤ c.g1_powers.length) :
    (c.verify_pubkey (t.products.getLastD 0) = true ↔
      pairing (c.g1_powers.getD 1 0) g2_gen = pairing (t.products.getLastD 0) c.pubkey) ∧
    (pairing (c.g1_powers.getD 1 0) g2_gen ≠ pairing (t.products.getLastD 0) c.pubkey →
      c.verify t f1 f2 = false) := by
  constructor
  · simp only [Contribution.verify_pubkey, decide_eq_true_eq]
  · intro hne
    have hpk : c.verify_pubkey (t.products.getLastD 0) = false := by
      simp only [Contribution.verify_pubkey, decide_eq_false_iff_not]
      exact hne
    simp only [Contribution.verify, hpk, Bool.and_false, Bool.false_and]

/-- Witness for C3 at a concrete contribution and transcript. -/
theorem C3_verify_pubkey_spec_witness :
    (Contribution.verify_pubkey (⟨1, [1, 1], [1, 1]⟩ : Contribution G1 G2)
        ((⟨[1, 1], [1, 1], [1], [1]⟩ : Transcript).products.getLastD 0) = true ↔
      pairing ((⟨1, [1, 1], [1, 1]⟩ : Contribution G1 G2).g1_powers.getD 1 0) g2_gen =
        pairing ((⟨[1, 1], [1, 1], [1], [1]⟩ : Transcript).products.getLastD 0)
          (⟨1, [1, 1], [1, 1]⟩ : Contribution G1 G2).pubkey) :=
  (C3_verify_pubkey_spec ⟨1, [1, 1], [1, 1]⟩ ⟨[1, 1], [1, 1], [1], [1]⟩ [1] [1, 1]
    (by decide) (by decide) (by decide)).1


/-- Counterexample for C4: with g1_powers = [0, [1]G, 0] (discrete logs
0, 1, 0), g2_powers[1] the identity, and random factors (1, -1) whose
sum is zero, `verify_g1` succeeds even though the pairing equality
claimed by the specification fails: the code multiplies both G2 sides by
the factor sum R, so R = 0 trivialises the check. -/
theorem C4_verify_g1_counterexample :
    Contribution.verify_g1 (⟨0, [0, 1, 0], [0, 0]⟩ : Contribution G1 G2) [1, -1] = true ∧
    pairing (msm ((⟨0, [0, 1, 0], [0, 0]⟩ : Contribution G1 G2).g1_powers.drop 1) [1, -1]) g2_gen ≠
      pairing (msm ((⟨0, [0, 1, 0], [0, 0]⟩ : Contribution G1 G2).g1_powers.take 2) [1, -1])
        ((⟨0, [0, 1, 0], [0, 0]⟩ : Contribution G1 G2).g2_powers.getD 1 0) := by
  constructor
  · decide
  · decide

/-- C4 (amended): the G1-consistency step compares
`e(msm(g1_powers[1..], r), [R] G2 gen)` with
`e(msm(g1_powers[..n-1], r), [R] g2_powers[1])` where R is the sum of
the n-1 random factors; whenever R is invertible this is equivalent to
the specified equality
`e(sum r_i g1_powers[1+i], G2 gen) = e(sum r_i g1_powers[i], g2_powers[1])`,
but when R = 0 the check passes unconditionally. -/
theorem C4_verify_g1_spec (c : Contribution G1 G2) (factors : List Fr)
    (hlen : factors.length = c.g1_powers.length - 1)
    (hsum : IsUnit factors.sum) :
    c.verify_g1 factors = true ↔
      pairing (msm (c.g1_powers.drop 1) factors) g2_gen =
        pairing (msm (c.g1_powers.take factors.length) factors) (c.g2_powers.getD 1 0) := by
  simp only [Contribution.verify_g1, decide_eq_true_eq, pairing, g2_gen]
  constructor
  · intro h
    have h2 : factors.sum * (msm (c.g1_powers.drop 1) factors * 1) =
        factors.sum * (msm (c.g1_powers.take factors.length) factors * c.g2_powers.getD 1 0) := by
      linear_combination h
    exact hsum.mul_left_cancel h2
  · intro h
    linear_combination factors.sum * h

/-- Witness for C4 at a concrete contribution with invertible factor sum. -/
theorem C4_verify_g1_spec_witness :
    Contribution.verify_g1 (⟨1, [1, 1], [1, 1]⟩ : Contribution G1 G2) [1] = true ↔
      pairing (msm ((⟨1, [1, 1], [1, 1]⟩ : Contribution G1 G2).g1_powers.drop 1) [1]) g2_gen =
        pairing (msm ((⟨1, [1, 1], [1, 1]⟩ : Contribution G1 G2).g1_powers.take
            (List.length [(1 : Fr)])) [1])
          ((⟨1, [1, 1], [1, 1]⟩ : Contribution G1 G2).g2_powers.getD 1 0) :=
  C4_verify_g1_spec ⟨1, [1, 1], [1, 1]⟩ [1] (by decide)
    (by rw [List.sum_cons, List.sum_nil, add_zero]; exact isUnit_one)



/-- C6 (code bug): a single genuinely true pairing equality
`e([2]G1, [3]G2) = e([6]G1, G2)` is rejected by the batch check for the
sampled factor 1: because `new` starts the sums at the generators and
`add_check` scales both pair components by the factor, the accumulated
pairings are `e([1+2](G1), [1+3](G2))` versus `e([1+6](G1), [1+1](G2))`,
whose exponents 12 and 14 differ. -/
theorem C6_batch_check_code_bug :
    pairing (2 : G1) (3 : G2) = pairing (6 : G1) (1 : G2) ∧
    (BatchPairingCheck.new.add_check (2, 3) (6, 1) 1).check = false := by
  constructor
  · decide
  · decide

/-- Counterexample for C7: `new` does not initialise the running sums to
the identity (its G1 component is the generator, discrete log 1, not 0),
and `add_check` does scale the second (G2) component of the pair by the
random factor (adding (0,5) with factor 2 advances the G2 sum by 10, not
by 5). -/
theorem C7_batch_counterexample :
    BatchPairingCheck.new.lhs.1 ≠ (0 : G1) ∧
    (BatchPairingCheck.new.add_check (0, 5) (0, 0) 2).lhs.2 ≠ BatchPairingCheck.new.lhs.2 + 5 := by
  constructor
  · decide
  · decide

/-- C7 (amended): `new` initialises both running pairs to the pair of
prime-subgroup generators (not the identity), and `add_check((a,b),(c,d))`
with sampled factor rho accumulates `lhs += (rho*a, rho*b)` and
`rhs += (rho*c, rho*d)` - the random factor multiplies BOTH components
of each pair, not only the G1 component. -/
theorem C7_batch_new_add_check_spec (st : BatchPairingCheck) (a : G1) (b : G2)
    (c : G1) (d : G2) (f : Fr) :
    BatchPairingCheck.new = ⟨(g1_gen, g2_gen), (g1_gen, g2_gen)⟩ ∧
    st.add_check (a, b) (c, d) f =
      ⟨(st.lhs.1 + f * a, st.lhs.2 + f * b), (st.rhs.1 + f * c, st.rhs.2 + f * d)⟩ :=
  ⟨rfl, rfl⟩


/-- The double-and-add loop shared by `g1_mul_bigint` and
`g1_mul_bigint_proj` of src/src/subgroup_check.rs
(`for b in BitIteratorBE: res.double_in_place(); if b res += base`),
over an arbitrary additively written group: walking from the given bit
position of the scalar down to bit 0, double the accumulator and add the
base when the bit is set. -/
def dblAddLoop {G : Type} [AddCommGroup G] (p : G) (s : ℕ) : ℕ → G → G
  | 0, res =>
      let r := res + res
      if s.testBit 0 then r + p else r
  | i + 1, res =>
      let r := res + res
      dblAddLoop p s i (if s.testBit (i + 1) then r + p else r)

/-- `g1_mul_bigint` of src/src/subgroup_check.rs: double-and-add from the
highest set bit of the scalar (`BitIteratorBE::without_leading_zeros`;
the scalar is a single u64 limb, so 64 bits of fuel suffice for the
logarithm). -/
def g1_mul_bigint {G : Type} [AddCommGroup G] (p : G) (s : ℕ) : G :=
  dblAddLoop p s (log2w 64 s) 0

/-- `g1_mul_bigint_proj` of src/src/subgroup_check.rs: identical
algorithm with a projective base point (the representation change is
invisible at the group level). -/
def g1_mul_bigint_proj {G : Type} [AddCommGroup G] (p : G) (s : ℕ) : G :=
  dblAddLoop p s (log2w 64 s) 0

/-- `g1_subgroup_check` of src/src/subgroup_check.rs over an arbitrary
group model with the curve endomorphism supplied as a parameter: compute
`xP = [X]P`; early-reject when `xP == P` for non-identity `P`; otherwise
accept exactly when `-[X]([X]P) == psi(P)`. -/
def g1_subgroup_check {G : Type} [AddCommGroup G] [DecidableEq G]
    (psi : G → G) (p : G) : Bool :=
  let x_times_p := g1_mul_bigint p blsX
  if x_times_p = p ∧ ¬p = 0 then false
  else decide (-(g1_mul_bigint_proj x_times_p blsX) = psi p)

lemma dblAddLoop_spec {G : Type} [AddCommGroup G] (p : G) (s : ℕ) :
    ∀ (i : ℕ) (res : G), dblAddLoop p s i res =
      (2 ^ (i + 1)) • res + (s % 2 ^ (i + 1)) • p := by
  intro i
  induction i with
  | zero =>
      intro res
      by_cases h : s.testBit 0 = true
      · have hs : s % 2 = 1 := by rw [mod_two_eq_testBit, if_pos h]
        simp only [dblAddLoop, if_pos h]
        norm_num [hs, two_smul]
      · have hs : s % 2 = 0 := by rw [mod_two_eq_testBit, if_neg h]
        simp only [dblAddLoop, if_neg h]
        norm_num [hs, two_smul]
  | succ i ih =>
      intro res
      have hdec : s % 2 ^ (i + 2) = s % 2 ^ (i + 1) + 2 ^ (i + 1) * (s / 2 ^ (i + 1) % 2) := by
        rw [pow_succ]
        exact Nat.mod_mul
      have h2 : ((res + res) : G) = (2 : ℕ) • res := (two_smul ℕ res).symm
      by_cases h : s.testBit (i + 1) = true
      · have hb : s / 2 ^ (i + 1) % 2 = 1 := by
          rw [Nat.testBit_to_div_mod] at h
          simpa using h
        simp only [dblAddLoop, if_pos h]
        rw [ih, hdec, hb, mul_one, h2, smul_add, smul_smul, ← pow_succ, add_smul]
        abel
      · have hb : s / 2 ^ (i + 1) % 2 = 0 := by
          rw [Nat.testBit_to_div_mod] at h
          simp only [decide_eq_true_eq] at h
          omega
        simp only [dblAddLoop, if_neg h]
        rw [ih, hdec, hb, h2, smul_smul, ← pow_succ]
        norm_num

lemma g1_mul_bigint_eq {G : Type} [AddCommGroup G] (p : G) (s : ℕ) (hs : s < 2 ^ 64) :
    g1_mul_bigint p s = s • p := by
  unfold g1_mul_bigint
  rw [dblAddLoop_spec, smul_zero, zero_add, log2w_eq 64 s hs,
    Nat.mod_eq_of_lt Nat.lt_log2_self]

lemma g1_mul_bigint_proj_eq {G : Type} [AddCommGroup G] (p : G) (s : ℕ) (hs : s < 2 ^ 64) :
    g1_mul_bigint_proj p s = s • p :=
  g1_mul_bigint_eq p s hs

/-- C5: over any model of the curve group in which the endomorphism
characterises the prime-order subgroup as in Section 6 of
eprint 2021/1130 (the theorem the source cites: a point on the curve
satisfies `psi(P) = -[X^2]P` exactly when it lies in the order-r
subgroup), `g1_subgroup_check` decides membership in the subgroup
(`rN . P = 0`): subgroup points - in particular all multiples of the
generator - are accepted and points outside are rejected; the routine
early-rejects when `[X]P = P` for non-identity `P` (such a point is
never in the subgroup since gcd(X-1, r) = 1), and otherwise accepts
exactly when `-[X^2]P = psi(P)`. -/
theorem C5_g1_subgroup_check_spec {G : Type} [AddCommGroup G] [DecidableEq G]
    (psi : G → G) (P : G)
    (hpsi : ∀ Q : G, psi Q = -((blsX ^ 2) • Q) ↔ rN • Q = 0) :
    (g1_subgroup_check psi P = true ↔ rN • P = 0) ∧
    (g1_mul_bigint P blsX = P ∧ P ≠ 0 → g1_subgroup_check psi P = false) ∧
    (¬(g1_mul_bigint P blsX = P ∧ P ≠ 0) →
      (g1_subgroup_check psi P = true ↔
        -(g1_mul_bigint_proj (g1_mul_bigint P blsX) blsX) = psi P)) := by
  have hX : blsX < 2 ^ 64 := by norm_num [blsX]
  have hxp : g1_mul_bigint P blsX = blsX • P := g1_mul_bigint_eq P blsX hX
  have hx2 : -(g1_mul_bigint_proj (g1_mul_bigint P blsX) blsX) = -((blsX ^ 2) • P) := by
    rw [hxp, g1_mul_bigint_proj_eq _ _ hX, smul_smul, ← pow_two]
  by_cases hearly : g1_mul_bigint P blsX = P ∧ ¬P = 0
  · have hchk : g1_subgroup_check psi P = false := by
      simp only [g1_subgroup_check]
      rw [if_pos hearly]
    have hnot : ¬(rN • P = 0) := by
      intro hr
      have hstep : blsX • P = P := by rw [← hxp]; exact hearly.1
      have hz1 : ((blsX : ℤ) - 1) • P = 0 := by
        rw [sub_smul, one_smul, natCast_zsmul, hstep, sub_self]
      have hz2 : (rN : ℤ) • P = 0 := by rw [natCast_zsmul]; exact hr
      have hb : ((52435875175126190475982595682112313518685294159687245466268552654212825088001 : ℤ) *
          ((blsX : ℤ) - 1) + (-15132376222941642750 : ℤ) * (rN : ℤ)) = 1 := by
        norm_num [blsX, rN]
      have h1 : (1 : ℤ) • P = 0 := by
        calc (1 : ℤ) • P
            = ((52435875175126190475982595682112313518685294159687245466268552654212825088001 : ℤ) *
                ((blsX : ℤ) - 1) +
              (-15132376222941642750 : ℤ) * (rN : ℤ)) • P := by rw [hb]
          _ = (52435875175126190475982595682112313518685294159687245466268552654212825088001 : ℤ) •
                (((blsX : ℤ) - 1) • P) +
              (-15132376222941642750 : ℤ) • ((rN : ℤ) • P) := by
                rw [add_smul, mul_smul, mul_smul]
          _ = 0 := by rw [hz1, hz2, smul_zero, smul_zero, add_zero]
      exact hearly.2 (by simpa using h1)
    refine ⟨?_, fun _ => hchk, fun hn => absurd hearly hn⟩
    rw [hchk]
    simp [hnot]
  · have hchk : g1_subgroup_check psi P =
        decide (-(g1_mul_bigint_proj (g1_mul_bigint P blsX) blsX) = psi P) := by
      simp only [g1_subgroup_check]
      rw [if_neg hearly]
    refine ⟨?_, fun h => absurd h hearly, fun _ => by rw [hchk]; simp⟩
    rw [hchk, decide_eq_true_eq, hx2]
    constructor
    · intro h
      exact (hpsi P).mp h.symm
    · intro h
      exact ((hpsi P).mpr h).symm


/-- Witness for C5: in the discrete-logarithm model of the subgroup
(where the endomorphism acts as multiplication by -G1_LAMBDA_2 and every
point has order dividing r), the check accepts a scalar multiple of the
generator. -/
theorem C5_g1_subgroup_check_spec_witness :
    g1_subgroup_check g1_endomorphism ((12345 : Fr) * g1_gen) = true := by
  have hnat : lambda2 = blsX ^ 2 := by norm_num [lambda2, blsX]
  have hpsi : ∀ Q : G1, g1_endomorphism Q = -((blsX ^ 2) • Q) ↔ rN • Q = 0 := by
    intro Q
    have h1 : rN • Q = 0 := by
      rw [nsmul_eq_mul, ZMod.natCast_self, zero_mul]
    have h2 : g1_endomorphism Q = -((blsX ^ 2) • Q) := by
      rw [g1_endomorphism, nsmul_eq_mul, hnat]
    exact iff_of_true h2 h1
  exact (C5_g1_subgroup_check_spec g1_endomorphism ((12345 : Fr) * g1_gen) hpsi).1.mpr
    (by rw [nsmul_eq_mul, ZMod.natCast_self, zero_mul])


/-- `ParseError` of src/src/lib.rs.  `MissingPrefix` (reject when the
string does not start with "0x") is rendered here as `Missing0x`, and
the `FromHexError` payload of `InvalidHex` is dropped. -/
inductive ParseError where
  | InvalidLength (expected got : ℕ)
  | Missing0x
  | InvalidHex
  | BigIntError
  | NotCompressed
  | InvalidInfinity
  | InvalidXField
  | InvalidXCoordinate
  | InvalidSubgroup
deriving DecidableEq

/-- `ContributionError` of src/crypto/src/contribution.rs. -/
inductive ContributionError where
  | UnexpectedNumG1Powers (expected got : ℕ)
  | UnexpectedNumG2Powers (expected got : ℕ)
  | InconsistentNumG1Powers (num len : ℕ)
  | InconsistentNumG2Powers (num len : ℕ)
  | InvalidG1Power (idx : ℕ) (e : ParseError)
  | InvalidG2Power (idx : ℕ) (e : ParseError)
  | InvalidPubKey (e : ParseError)
deriving DecidableEq

/-- `ContributionsError` of src/crypto/src/contribution.rs. -/
inductive ContributionsError where
  | InvalidContribution (idx : ℕ) (e : ContributionError)
  | InvalidContributionCount (expected got : ℕ)
  | InvalidSchema
deriving DecidableEq

/-- The four fixed ceremony size classes, `SIZES` of the crate root. -/
def SIZES : List (ℕ × ℕ) := [(4096, 65), (8192, 65), (16384, 65), (32768, 65)]

/-- `PowersOfTau` wire structure. -/
structure PowersOfTau where
  g1_powers : List String
  g2_powers : List String
deriving DecidableEq

/-- `ContributionJson` wire structure. -/
structure ContributionJson where
  num_g1_powers : ℕ
  num_g2_powers : ℕ
  powers_of_tau : PowersOfTau
  pot_pubkey : Option String
deriving DecidableEq

/-- `ContributionsJson` wire structure. -/
structure ContributionsJson where
  sub_contributions : List ContributionJson
deriving DecidableEq

/-- The fixed compressed encoding of the G1 generator used by
`PowersOfTau::initial`. -/
def g1GenHex : String :=
  "0x97f1d3a73197d7942695638c4fa9ac0fc3688c4f9774b905a14e3a3f171bac586c55e83ff97a1aeffb3af00adb22c6bb"

/-- The fixed compressed encoding of the G2 generator used by
`PowersOfTau::initial`. -/
def g2GenHex : String :=
  "0x93e02b6052719f607dacd3a088274f65596bd0d09920b61ab5da61bbdc7f5049334cf11213945d57e5ac7d055d042b7e024aa2b2f08f0a91260805272dc51051c6e47ad4fa403b02b4510b647ae3d1770bac0326a805bbefd48056c8c121bdb8"

/-- `PowersOfTau::initial`: both power vectors filled with the encoded
generators. -/
def PowersOfTau.initial (num_g1_powers num_g2_powers : ℕ) : PowersOfTau :=
  ⟨List.replicate num_g1_powers g1GenHex, List.replicate num_g2_powers g2GenHex⟩

/-- `ContributionJson::initial`: the genesis wire document for one size
class; note `pot_pubkey = None`. -/
def ContributionJson.initial (num_g1_powers num_g2_powers : ℕ) : ContributionJson :=
  ⟨num_g1_powers, num_g2_powers, PowersOfTau.initial num_g1_powers num_g2_powers, none⟩

/-- `Contribution::new` of src/crypto/src/contribution.rs: all powers
and the public key are the prime-subgroup generators. -/
def Contribution.new (num_g1 num_g2 : ℕ) : Contribution G1 G2 :=
  ⟨g2_gen, List.replicate num_g1 g1_gen, List.replicate num_g2 g2_gen⟩

/-- The indexed point-decoding pass of `ContributionJson::parse`: decode
every hex string with the supplied point decoder, wrapping the first
failure with its index via `wrap`. -/
def parseVec {Pt : Type} (pg : String → Except ParseError Pt)
    (wrap : ℕ → ParseError → ContributionError) : List String → ℕ →
      Except ContributionError (List Pt)
  | [], _ => .ok []
  | str :: rest, i =>
      match pg str with
      | .error e => .error (wrap i e)
      | .ok v =>
          match parseVec pg wrap rest (i + 1) with
          | .error e => .error e
          | .ok vs => .ok (v :: vs)

/-- `ContributionJson::parse` of src/crypto/src/contribution.rs,
parameterised by the two point decoders (the PointCodec layer): check
the declared counts against the vector lengths, decode all G1 and G2
powers, then decode the optional public key (absent means the G2
identity). -/
def ContributionJson.parse {P1 P2 : Type} [Zero P2]
    (pg1 : String → Except ParseError P1) (pg2 : String → Except ParseError P2)
    (c : ContributionJson) : Except ContributionError (Contribution P1 P2) :=
  if c.powers_of_tau.g1_powers.length ≠ c.num_g1_powers then
    .error (.InconsistentNumG1Powers c.num_g1_powers c.powers_of_tau.g1_powers.length)
  else if c.powers_of_tau.g2_powers.length ≠ c.num_g2_powers then
    .error (.InconsistentNumG2Powers c.num_g2_powers c.powers_of_tau.g2_powers.length)
  else
    match parseVec pg1 ContributionError.InvalidG1Power c.powers_of_tau.g1_powers 0 with
    | .error e => .error e
    | .ok g1s =>
        match parseVec pg2 ContributionError.InvalidG2Power c.powers_of_tau.g2_powers 0 with
        | .error e => .error e
        | .ok g2s =>
            match c.pot_pubkey with
            | some pk =>
                match pg2 pk with
                | .error e => .error (.InvalidPubKey e)
                | .ok pubkey => .ok ⟨pubkey, g1s, g2s⟩
            | none => .ok ⟨0, g1s, g2s⟩

/-- The size-class count checks of `ContributionsJson::parse`
(`zip(SIZES) / map / enumerate / try_for_each`): walk the
sub-contributions paired with the expected sizes and stop at the first
mismatch.  NOTE (faithful to the source): the branch for a G2 count
mismatch also reports `UnexpectedNumG1Powers(num_g1, c.num_g1_powers)`. -/
def checkCounts : List (ContributionJson × (ℕ × ℕ)) → ℕ → Except ContributionsError Unit
  | [], _ => .ok ()
  | (c, (num_g1, num_g2)) :: rest, i =>
      if c.num_g1_powers ≠ num_g1 then
        .error (.InvalidContribution i (.UnexpectedNumG1Powers num_g1 c.num_g1_powers))
      else if c.num_g2_powers ≠ num_g2 then
        .error (.InvalidContribution i (.UnexpectedNumG1Powers num_g1 c.num_g1_powers))
      else checkCounts rest (i + 1)

/-- The per-sub-contribution decoding pass of `ContributionsJson::parse`,
wrapping each failure with the sub-contribution index. -/
def parseSubs {P1 P2 : Type} [Zero P2]
    (pg1 : String → Except ParseError P1) (pg2 : String → Except ParseError P2) :
    List ContributionJson → ℕ → Except ContributionsError (List (Contribution P1 P2))
  | [], _ => .ok []
  | c :: rest, i =>
      match c.parse pg1 pg2 with
      | .error e => .error (.InvalidContribution i e)
      | .ok v =>
          match parseSubs pg1 pg2 rest (i + 1) with
          | .error e => .error e
          | .ok vs => .ok (v :: vs)

/-- `ContributionsJson::parse` of src/crypto/src/contribution.rs: require
exactly as many sub-contributions as size classes, run the count checks,
then decode every sub-contribution. -/
def ContributionsJson.parse {P1 P2 : Type} [Zero P2]
    (pg1 : String → Except ParseError P1) (pg2 : String → Except ParseError P2)
    (cs : ContributionsJson) : Except ContributionsError (List (Contribution P1 P2)) :=
  if cs.sub_contributions.length ≠ SIZES.length then
    .error (.InvalidContributionCount 4 cs.sub_contributions.length)
  else
    match checkCounts (cs.sub_contributions.zip SIZES) 0 with
    | .error e => .error e
    | .ok _ => parseSubs pg1 pg2 cs.sub_contributions 0


lemma parseVec_replicate {Pt : Type} (pg : String → Except ParseError Pt)
    (wrap : ℕ → ParseError → ContributionError) (str : String) (v : Pt)
    (h : pg str = .ok v) :
    ∀ (n i : ℕ), parseVec pg wrap (List.replicate n str) i = .ok (List.replicate n v) := by
  intro n
  induction n with
  | zero => intro i; simp [parseVec]
  | succ n ih =>
      intro i
      simp only [List.replicate_succ, parseVec, h, ih (i + 1)]

/-- C10: the two genesis constructions disagree on the public key: for
every size pair, `Contribution::new` returns the G2 generator as pubkey,
while parsing the genesis wire document `ContributionJson::initial`
(whose `potPubkey` is absent) yields the G2 identity; consequently the
two contributions are different.  The point decoders are abstract,
assumed only to decode the two fixed generator encodings to the
generators. -/
theorem C10_genesis_pubkey_mismatch (n1 n2 : ℕ)
    (pg1 : String → Except ParseError G1) (pg2 : String → Except ParseError G2)
    (h1 : pg1 g1GenHex = .ok g1_gen) (h2 : pg2 g2GenHex = .ok g2_gen) :
    (Contribution.new n1 n2).pubkey = g2_gen ∧
    (ContributionJson.initial n1 n2).parse pg1 pg2 =
      .ok ⟨0, List.replicate n1 g1_gen, List.replicate n2 g2_gen⟩ ∧
    (∀ c : Contribution G1 G2, (ContributionJson.initial n1 n2).parse pg1 pg2 = .ok c →
      c.pubkey = 0 ∧ c ≠ Contribution.new n1 n2) := by
  have hparse : (ContributionJson.initial n1 n2).parse pg1 pg2 =
      .ok ⟨0, List.replicate n1 g1_gen, List.replicate n2 g2_gen⟩ := by
    simp only [ContributionJson.parse, ContributionJson.initial, PowersOfTau.initial,
      List.length_replicate, ne_eq, not_true_eq_false, if_false, ite_self,
      parseVec_replicate pg1 ContributionError.InvalidG1Power g1GenHex g1_gen h1,
      parseVec_replicate pg2 ContributionError.InvalidG2Power g2GenHex g2_gen h2]
  refine ⟨rfl, hparse, ?_⟩
  intro c hc
  rw [hparse] at hc
  have hc2 : c = ⟨0, List.replicate n1 g1_gen, List.replicate n2 g2_gen⟩ :=
    (Except.ok.inj hc).symm
  subst hc2
  refine ⟨rfl, ?_⟩
  intro heq
  have hpk := congrArg Contribution.pubkey heq
  simp only [Contribution.new] at hpk
  exact absurd hpk (by decide)

/-- Witness for C10 with decoders that decode the generator encodings. -/
theorem C10_genesis_pubkey_mismatch_witness :
    (ContributionJson.initial 2 1).parse
        (fun str => if str = g1GenHex then .ok g1_gen else .error .InvalidHex)
        (fun str => if str = g2GenHex then .ok g2_gen else .error .InvalidHex) =
      .ok ⟨0, List.replicate 2 g1_gen, List.replicate 1 g2_gen⟩ :=
  (C10_genesis_pubkey_mismatch 2 1
      (fun str => if str = g1GenHex then .ok g1_gen else .error .InvalidHex)
      (fun str => if str = g2GenHex then .ok g2_gen else .error .InvalidHex)
      (by simp) (by simp)).2.1


lemma list_eq_four {α : Type} (l : List α) (h : l.length = 4) :
    ∃ a b c d, l = [a, b, c, d] := by
  rcases l with _ | ⟨a, l⟩
  · simp at h
  rcases l with _ | ⟨b, l⟩
  · simp at h
  rcases l with _ | ⟨c, l⟩
  · simp at h
  rcases l with _ | ⟨d, l⟩
  · simp at h
  rcases l with _ | ⟨e, l⟩
  · exact ⟨a, b, c, d, rfl⟩
  · simp only [List.length_cons] at h
    omega

lemma parseVec_error_shape {Pt : Type} (pg : String → Except ParseError Pt)
    (wrap : ℕ → ParseError → ContributionError) :
    ∀ (l : List String) (i : ℕ) (err : ContributionError),
      parseVec pg wrap l i = .error err → ∃ j e, err = wrap j e := by
  intro l
  induction l with
  | nil => intro i err h; simp [parseVec] at h
  | cons str rest ih =>
      intro i err h
      simp only [parseVec] at h
      rcases hpg : pg str with e | v
      · rw [hpg] at h
        exact ⟨i, e, (Except.error.inj h).symm⟩
      · rw [hpg] at h
        rcases hrec : parseVec pg wrap rest (i + 1) with e2 | vs
        · rw [hrec] at h
          have := Except.error.inj h
          subst this
          exact ih (i + 1) e2 hrec
        · rw [hrec] at h
          exact absurd h (by simp)

lemma contributionJson_parse_error_shape {P1 P2 : Type} [Zero P2]
    (pg1 : String → Except ParseError P1) (pg2 : String → Except ParseError P2)
    (c : ContributionJson) (err : ContributionError)
    (h : c.parse pg1 pg2 = .error err) :
    ∀ (a b : ℕ), err ≠ .UnexpectedNumG2Powers a b ∧ err ≠ .UnexpectedNumG1Powers a b := by
  intro a b
  simp only [ContributionJson.parse] at h
  split at h
  · have := Except.error.inj h
    subst this
    exact ⟨by simp, by simp⟩
  · split at h
    · have := Except.error.inj h
      subst this
      exact ⟨by simp, by simp⟩
    · split at h
      · rename_i e heq
        have := Except.error.inj h
        subst this
        obtain ⟨j, e2, he⟩ := parseVec_error_shape pg1 _ _ 0 _ heq
        subst he
        exact ⟨by simp, by simp⟩
      · split at h
        · rename_i e heq
          have := Except.error.inj h
          subst this
          obtain ⟨j, e2, he⟩ := parseVec_error_shape pg2 _ _ 0 _ heq
          subst he
          exact ⟨by simp, by simp⟩
        · split at h
          · split at h
            · have := Except.error.inj h
              subst this
              exact ⟨by simp, by simp⟩
            · exact absurd h (by simp)
          · exact absurd h (by simp)

lemma parseSubs_no_unexpected_g2 {P1 P2 : Type} [Zero P2]
    (pg1 : String → Except ParseError P1) (pg2 : String → Except ParseError P2) :
    ∀ (l : List ContributionJson) (i : ℕ) (err : ContributionsError),
      parseSubs pg1 pg2 l i = .error err →
        ∀ (j a b : ℕ), err ≠ .InvalidContribution j (.UnexpectedNumG2Powers a b) := by
  intro l
  induction l with
  | nil => intro i err h; simp [parseSubs] at h
  | cons c rest ih =>
      intro i err h j a b
      simp only [parseSubs] at h
      rcases hc : ContributionJson.parse pg1 pg2 c with e | v
      · rw [hc] at h
        have := Except.error.inj h
        subst this
        intro hcontra
        obtain ⟨rfl, he⟩ : j = i ∧ (ContributionError.UnexpectedNumG2Powers a b) = e := by
          have h2 := (ContributionsError.InvalidContribution.injEq _ _ _ _).mp hcontra.symm
          exact ⟨h2.1, h2.2⟩
        exact (contributionJson_parse_error_shape pg1 pg2 c e hc a b).1 he.symm
      · rw [hc] at h
        rcases hrec : parseSubs pg1 pg2 rest (i + 1) with e2 | vs
        · rw [hrec] at h
          have := Except.error.inj h
          subst this
          exact ih (i + 1) e2 hrec j a b
        · rw [hrec] at h
          exact absurd h (by simp)

lemma checkCounts_error_shape :
    ∀ (l : List (ContributionJson × (ℕ × ℕ))) (i : ℕ) (err : ContributionsError),
      checkCounts l i = .error err →
        ∃ j a b, err = .InvalidContribution j (.UnexpectedNumG1Powers a b) := by
  intro l
  induction l with
  | nil => intro i err h; simp [checkCounts] at h
  | cons p rest ih =>
      intro i err h
      rcases p with ⟨c, n1, n2⟩
      simp only [checkCounts] at h
      by_cases h1 : c.num_g1_powers ≠ n1
      · rw [if_pos h1] at h
        exact ⟨i, n1, c.num_g1_powers, (Except.error.inj h).symm⟩
      · rw [if_neg h1] at h
        by_cases h2 : c.num_g2_powers ≠ n2
        · rw [if_pos h2] at h
          exact ⟨i, n1, c.num_g1_powers, (Except.error.inj h).symm⟩
        · rw [if_neg h2] at h
          exact ih (i + 1) err h


/-- C9: for a wire document with exactly 4 sub-contributions, all of
which declare the expected numG1Powers, whose first offending
sub-contribution i declares a numG2Powers different from the expected
65, `parse` reports
`InvalidContribution(i, UnexpectedNumG1Powers(expected_g1, declared_g1))`
- the G2 count mismatch is routed through the G1 error variant carrying
the (matching) G1 counts - and `UnexpectedNumG2Powers` is never produced
by `parse` on any input. -/
theorem C9_parse_reports_g2_mismatch_via_g1 {P1 P2 : Type} [Zero P2]
    (pg1 : String → Except ParseError P1) (pg2 : String → Except ParseError P2)
    (cs : ContributionsJson) (i : ℕ)
    (hlen : cs.sub_contributions.length = 4)
    (hg1 : ∀ j, j < 4 →
      (cs.sub_contributions.getD j ⟨0, 0, ⟨[], []⟩, none⟩).num_g1_powers =
        (SIZES.getD j (0, 0)).1)
    (hi : i < 4)
    (hbad : (cs.sub_contributions.getD i ⟨0, 0, ⟨[], []⟩, none⟩).num_g2_powers ≠ 65)
    (hfirst : ∀ j, j < i →
      (cs.sub_contributions.getD j ⟨0, 0, ⟨[], []⟩, none⟩).num_g2_powers = 65) :
    cs.parse pg1 pg2 = .error (.InvalidContribution i (.UnexpectedNumG1Powers
      ((SIZES.getD i (0, 0)).1)
      ((cs.sub_contributions.getD i ⟨0, 0, ⟨[], []⟩, none⟩).num_g1_powers))) ∧
    (∀ (cs2 : ContributionsJson) (j a b : ℕ),
      ContributionsJson.parse pg1 pg2 cs2 ≠
        .error (.InvalidContribution j (.UnexpectedNumG2Powers a b))) := by
  constructor
  · obtain ⟨c0, c1, c2, c3, hcs⟩ := list_eq_four cs.sub_contributions hlen
    rw [hcs] at hg1 hbad hfirst
    have e0 := hg1 0 (by norm_num)
    have e1 := hg1 1 (by norm_num)
    have e2 := hg1 2 (by norm_num)
    have e3 := hg1 3 (by norm_num)
    simp only [SIZES, List.getD_cons_zero, List.getD_cons_succ] at e0 e1 e2 e3
    simp only [ContributionsJson.parse]
    rw [hcs]
    rw [if_neg (by norm_num [SIZES])]
    have hzip : ([c0, c1, c2, c3] : List ContributionJson).zip SIZES =
        [(c0, (4096, 65)), (c1, (8192, 65)), (c2, (16384, 65)), (c3, (32768, 65))] := rfl
    rw [hzip]
    interval_cases i
    · simp only [List.getD_cons_zero] at hbad ⊢
      have hc : checkCounts
          [(c0, (4096, 65)), (c1, (8192, 65)), (c2, (16384, 65)), (c3, (32768, 65))] 0 =
          .error (.InvalidContribution 0 (.UnexpectedNumG1Powers 4096 c0.num_g1_powers)) := by
        simp only [checkCounts]
        rw [if_neg (by omega), if_pos hbad]
      rw [hc]
      rfl
    · have f0 := hfirst 0 (by norm_num)
      simp only [List.getD_cons_zero, List.getD_cons_succ] at hbad f0 ⊢
      have hc : checkCounts
          [(c0, (4096, 65)), (c1, (8192, 65)), (c2, (16384, 65)), (c3, (32768, 65))] 0 =
          .error (.InvalidContribution 1 (.UnexpectedNumG1Powers 8192 c1.num_g1_powers)) := by
        simp only [checkCounts]
        rw [if_neg (by omega), if_neg (by omega), if_neg (by omega), if_pos hbad]
      rw [hc]
      rfl
    · have f0 := hfirst 0 (by norm_num)
      have f1 := hfirst 1 (by norm_num)
      simp only [List.getD_cons_zero, List.getD_cons_succ] at hbad f0 f1 ⊢
      have hc : checkCounts
          [(c0, (4096, 65)), (c1, (8192, 65)), (c2, (16384, 65)), (c3, (32768, 65))] 0 =
          .error (.InvalidContribution 2 (.UnexpectedNumG1Powers 16384 c2.num_g1_powers)) := by
        simp only [checkCounts]
        rw [if_neg (by omega), if_neg (by omega), if_neg (by omega), if_neg (by omega),
          if_neg (by omega), if_pos hbad]
      rw [hc]
      rfl
    · have f0 := hfirst 0 (by norm_num)
      have f1 := hfirst 1 (by norm_num)
      have f2 := hfirst 2 (by norm_num)
      simp only [List.getD_cons_zero, List.getD_cons_succ] at hbad f0 f1 f2 ⊢
      have hc : checkCounts
          [(c0, (4096, 65)), (c1, (8192, 65)), (c2, (16384, 65)), (c3, (32768, 65))] 0 =
          .error (.InvalidContribution 3 (.UnexpectedNumG1Powers 32768 c3.num_g1_powers)) := by
        simp only [checkCounts]
        rw [if_neg (by omega), if_neg (by omega), if_neg (by omega), if_neg (by omega),
          if_neg (by omega), if_neg (by omega), if_neg (by omega), if_pos hbad]
      rw [hc]
      rfl
  · intro cs2 j a b hcontra
    simp only [ContributionsJson.parse] at hcontra
    split at hcontra
    · exact absurd (Except.error.inj hcontra) (by simp)
    · split at hcontra
      · rename_i e heq
        have := Except.error.inj hcontra
        subst this
        obtain ⟨j2, a2, b2, hshape⟩ := checkCounts_error_shape _ 0 _ heq
        simp at hshape
      · exact parseSubs_no_unexpected_g2 pg1 pg2 _ 0 _ hcontra j a b rfl


/-- Witness for C9: a document whose second sub-contribution declares
numG2Powers = 64 instead of 65 is reported through the G1 error variant
with the matching G1 counts. -/
theorem C9_parse_reports_g2_mismatch_via_g1_witness :
    @ContributionsJson.parse G1 G2 _ (fun _ => .error .InvalidHex) (fun _ => .error .InvalidHex)
      ⟨[⟨4096, 65, ⟨[], []⟩, none⟩, ⟨8192, 64, ⟨[], []⟩, none⟩,
        ⟨16384, 65, ⟨[], []⟩, none⟩, ⟨32768, 65, ⟨[], []⟩, none⟩]⟩ =
      .error (.InvalidContribution 1 (.UnexpectedNumG1Powers 8192 8192)) :=
  (C9_parse_reports_g2_mismatch_via_g1 (fun _ => .error .InvalidHex) (fun _ => .error .InvalidHex)
    ⟨[⟨4096, 65, ⟨[], []⟩, none⟩, ⟨8192, 64, ⟨[], []⟩, none⟩,
      ⟨16384, 65, ⟨[], []⟩, none⟩, ⟨32768, 65, ⟨[], []⟩, none⟩]⟩ 1
    (by decide) (by decide) (by decide) (by decide) (by decide)).1


/-- The BLS12-381 base field. -/
abbrev Fq : Type := ZMod qN

/-- `G1Affine` of the arkworks backend: affine coordinates plus the
infinity flag; `zero()` is `(0, 1, infinity = true)`. -/
structure G1Affine where
  x : Fq
  y : Fq
  infinity : Bool
deriving DecidableEq

/-- `G1Affine::zero()`. -/
def G1Affine.zero : G1Affine := ⟨0, 1, true⟩

/-- One hex digit (`hex::decode` accepts both cases). -/
def hexDigit (c : Char) : Option ℕ :=
  if '0' ≤ c ∧ c ≤ '9' then some (c.toNat - '0'.toNat)
  else if 'a' ≤ c ∧ c ≤ 'f' then some (c.toNat - 'a'.toNat + 10)
  else if 'A' ≤ c ∧ c ≤ 'F' then some (c.toNat - 'A'.toNat + 10)
  else none

/-- `hex::decode_to_slice`: consume the characters two at a time. -/
def hexPairsToBytes : List Char → Option (List ℕ)
  | [] => some []
  | [_] => none
  | c1 :: c2 :: rest =>
      match hexDigit c1, hexDigit c2, hexPairsToBytes rest with
      | some hi, some lo, some bs => some ((16 * hi + lo) :: bs)
      | _, _, _ => none

/-- `parse_hex` of src/src/lib.rs: check the exact length `2 + 2N`, the
`0x` prefix, and decode the hex digits into `N` bytes. -/
def parse_hex (N : ℕ) (hex : String) : Except ParseError (List ℕ) :=
  if hex.length ≠ 2 + 2 * N then .error (.InvalidLength (2 + 2 * N) hex.length)
  else
    match hex.data with
    | '0' :: 'x' :: rest =>
        match hexPairsToBytes rest with
        | some bytes => .ok bytes
        | none => .error .InvalidHex
    | _ => .error .Missing0x

/-- Big-endian byte-list to natural number (the source reverses the
buffer and reads little-endian limbs; same value). -/
def beBytes (l : List ℕ) : ℕ := l.foldl (fun acc b => 256 * acc + b) 0

/-- Binary modular exponentiation modulo q with explicit fuel (the
exponents used have fewer than 400 bits); field elements are naturals
kept reduced below q, mirroring the bignum field arithmetic. -/
def powModQ : ℕ → ℕ → ℕ → ℕ
  | 0, _, _ => 1
  | f + 1, z, e =>
      if e = 0 then 1
      else
        let h := powModQ f (z * z % qN) (e / 2)
        if e % 2 = 1 then z * h % qN else h

/-- Addition modulo q. -/
def addq (a b : ℕ) : ℕ := (a + b) % qN

/-- Multiplication modulo q. -/
def mulq (a b : ℕ) : ℕ := a * b % qN

/-- Subtraction modulo q (for a subtrahend below q). -/
def subq (a b : ℕ) : ℕ := (a + (qN - b)) % qN

/-- `G1Affine::get_point_from_x` of the arkworks backend: solve
`y^2 = x^3 + 4` - since q = 3 (mod 4), `z^((q+1)/4)` is a square root of
z whenever one exists, matching the behaviour (Some root iff square) of
the arkworks `sqrt` - then pick the root selected by the `greatest` flag
(`let y = if (y < negy) ^ greatest { y } else { negy }`, with `<` the
order on canonical representatives). -/
def get_point_from_x (x : Fq) (greatest : Bool) : Option G1Affine :=
  let z := addq (mulq (mulq x.val x.val) x.val) 4
  let s := powModQ 400 z ((qN + 1) / 4)
  if s * s % qN = z then
    let negy := (qN - s) % qN
    some ⟨x, (((if (decide (s < negy)).xor greatest = true then s else negy) : ℕ) : Fq), false⟩
  else none

/-- Jacobian-coordinate point used to evaluate the curve group law
without field inversions (the point at infinity has Z = 0); coordinates
are naturals kept reduced below q. -/
structure JacPoint where
  jx : ℕ
  jy : ℕ
  jz : ℕ
deriving DecidableEq

/-- The point at infinity in Jacobian coordinates. -/
def jacZero : JacPoint := ⟨1, 1, 0⟩

/-- Affine to Jacobian. -/
def jacOfAffine (p : G1Affine) : JacPoint :=
  if p.infinity then jacZero else ⟨p.x.val, p.y.val, 1⟩

/-- Jacobian doubling on `y^2 = x^3 + 4` (a = 0); total, and maps points
with Y = 0 or Z = 0 to infinity as the group law requires. -/
def jacDouble (p : JacPoint) : JacPoint :=
  let xx := mulq p.jx p.jx
  let yy := mulq p.jy p.jy
  let yyyy := mulq yy yy
  let zz := mulq p.jz p.jz
  let s := mulq 2 (subq (subq (mulq (addq p.jx yy) (addq p.jx yy)) xx) yyyy)
  let m := mulq 3 xx
  let t := subq (mulq m m) (mulq 2 s)
  ⟨t, subq (mulq m (subq s t)) (mulq 8 yyyy),
    subq (subq (mulq (addq p.jy p.jz) (addq p.jy p.jz)) yy) zz⟩

/-- Jacobian addition on `y^2 = x^3 + 4` with the standard special
cases (identity operands, doubling, inverse operands). -/
def jacAdd (p q : JacPoint) : JacPoint :=
  if p.jz = 0 then q
  else if q.jz = 0 then p
  else
    let z1z1 := mulq p.jz p.jz
    let z2z2 := mulq q.jz q.jz
    let u1 := mulq p.jx z2z2
    let u2 := mulq q.jx z1z1
    let s1 := mulq (mulq p.jy q.jz) z2z2
    let s2 := mulq (mulq q.jy p.jz) z1z1
    if u1 = u2 then
      if s1 = s2 then jacDouble p else jacZero
    else
      let h := subq u2 u1
      let i := mulq (mulq 4 h) h
      let j := mulq h i
      let rr := mulq 2 (subq s2 s1)
      let v := mulq u1 i
      let x3 := subq (subq (mulq rr rr) j) (mulq 2 v)
      ⟨x3, subq (mulq rr (subq v x3)) (mulq (mulq 2 s1) j),
        mulq (subq (subq (mulq (addq p.jz q.jz) (addq p.jz q.jz)) z1z1) z2z2) h⟩

/-- One step of the binary (least-significant-bit first) double-and-add
scalar multiplication: the state is (running base, remaining scalar,
accumulator); when the scalar is exhausted the state is fixed. -/
def jacMulState (st : JacPoint × ℕ × JacPoint) : JacPoint × ℕ × JacPoint :=
  if st.2.1 = 0 then st
  else
    let acc2 := if st.2.1 % 2 = 1 then jacAdd st.2.2 st.1 else st.2.2
    (jacDouble st.1, st.2.1 / 2, acc2)

/-- Iterate the double-and-add step (the scalar r has 255 bits, so 256
iterations always exhaust it). -/
def jacIter : ℕ → (JacPoint × ℕ × JacPoint) → (JacPoint × ℕ × JacPoint)
  | 0, st => st
  | f + 1, st => jacIter f (jacMulState st)

/-- `is_in_correct_subgroup_assuming_on_curve` of the arkworks backend
as called by `parse_g1`: multiply by the subgroup order r and compare
with the identity. -/
def is_in_correct_subgroup (p : G1Affine) : Bool :=
  decide ((jacIter 256 (jacOfAffine p, rN, jacZero)).2.2.jz = 0)

/-- `parse_g1` of src/src/lib.rs: decode 48 bytes of hex, read the three
flag bits of byte 0, mask them off (`bytes[0] &= 0x1f`), interpret the
rest as the big-endian x coordinate, reject values outside the field,
require the compressed flag, handle the infinity flag (valid only with
the `greatest` flag clear and x = 0), otherwise recover y from x and
require subgroup membership.  The branch recovering y from x and
checking subgroup membership is split off as `parse_g1_point`; the flag
dispatch below it is the body of `parse_g1` of src/src/lib.rs after the
hex layer. -/
def parse_g1_point (b0 : ℕ) (xnat : ℕ) : Except ParseError G1Affine :=
  match get_point_from_x (xnat : Fq) (decide (b0 &&& 0x20 ≠ 0)) with
  | none => .error .InvalidXCoordinate
  | some point =>
      if is_in_correct_subgroup point = false then .error .InvalidSubgroup
      else .ok point

/-- The flag dispatch of `parse_g1` (src/src/lib.rs) on the decoded
bytes. -/
def parse_g1_bytes (bytes : List ℕ) : Except ParseError G1Affine :=
  let b0 := bytes.headD 0
  let xnat := beBytes ((b0 % 32) :: bytes.tail)
  if qN ≤ xnat then .error .InvalidXField
  else if b0 &&& 0x80 = 0 then .error .NotCompressed
  else if b0 &&& 0x40 ≠ 0 then
    if b0 &&& 0x20 ≠ 0 ∨ (xnat : Fq) ≠ 0 then .error .InvalidInfinity
    else .ok G1Affine.zero
  else parse_g1_point b0 xnat

/-- `parse_g1` of src/src/lib.rs, composed from the hex layer and the
byte layer above. -/
def parse_g1 (hex : String) : Except ParseError G1Affine :=
  match parse_hex 48 hex with
  | .error e => .error e
  | .ok bytes => parse_g1_bytes bytes


instance {e a : Type} [DecidableEq e] [DecidableEq a] : DecidableEq (Except e a) := fun x y =>
  match x, y with
  | .error e1, .error e2 =>
      if h : e1 = e2 then isTrue (by rw [h]) else isFalse (by simp [h])
  | .ok v1, .ok v2 =>
      if h : v1 = v2 then isTrue (by rw [h]) else isFalse (by simp [h])
  | .error _, .ok _ => isFalse (by simp)
  | .ok _, .error _ => isFalse (by simp)

lemma jacIter_add (a b : ℕ) (st : JacPoint × ℕ × JacPoint) :
    jacIter (a + b) st = jacIter b (jacIter a st) := by
  induction a generalizing st with
  | zero => rw [Nat.zero_add]; rfl
  | succ a ih =>
      have h : a + 1 + b = (a + b) + 1 := by omega
      rw [h]
      show jacIter (a + b) (jacMulState st) = jacIter b (jacIter (a + 1) st)
      rw [ih]
      rfl

set_option maxRecDepth 2000 in
/-- The non-identity point (0, 2) - which satisfies the curve equation
y^2 = x^3 + 4 but has order 3 - is rejected by the subgroup check
(r = 1 mod 3, so [r](0, 2) = (0, 2) is not the identity).  The 256 steps
of the scalar multiplication are evaluated in four chunks of 64. -/
lemma z80_subgroup_reject :
    is_in_correct_subgroup ⟨((0 : ℕ) : Fq), ((2 : ℕ) : Fq), false⟩ = false := by
  have h1 : jacIter 64 (jacOfAffine ⟨((0 : ℕ) : Fq), ((2 : ℕ) : Fq), false⟩, rN, jacZero) =
      ((⟨0, 3306806021178357035061099891190958524713198796686232822443633722194802955394230507057983930448187672723003049572770, 2840548254682284601747898691859217530055913560243580758981155136370641605000714945233733903407358935778941114843897⟩ : JacPoint), (2842554489052527299524402387144470364575536978984733400062 : ℕ), (⟨0, 1438760424641734299967443309381215114073486695823160481127739358048866570154174027198015569182879953714231240469426, 1583677354388282320109779028639896648552808466796170006884210713862806786159523735356960415517765398118921874254629⟩ : JacPoint)) := by decide
  have h2 : jacIter 64 ((⟨0, 3306806021178357035061099891190958524713198796686232822443633722194802955394230507057983930448187672723003049572770, 2840548254682284601747898691859217530055913560243580758981155136370641605000714945233733903407358935778941114843897⟩ : JacPoint), (2842554489052527299524402387144470364575536978984733400062 : ℕ), (⟨0, 1438760424641734299967443309381215114073486695823160481127739358048866570154174027198015569182879953714231240469426, 1583677354388282320109779028639896648552808466796170006884210713862806786159523735356960415517765398118921874254629⟩ : JacPoint)) =
      ((⟨0, 2370534496609958484499472216014221600332227020832736949822806856063287049030503921105298169021014928322434746803232, 3795771341597894156793597297156973292837467547199246754129181717006900783733915570626214033838973813001679106076397⟩ : JacPoint), (154095187621958656428822154526901524485 : ℕ), (⟨1, 1, 0⟩ : JacPoint)) := by decide
  have h3 : jacIter 64 ((⟨0, 2370534496609958484499472216014221600332227020832736949822806856063287049030503921105298169021014928322434746803232, 3795771341597894156793597297156973292837467547199246754129181717006900783733915570626214033838973813001679106076397⟩ : JacPoint), (154095187621958656428822154526901524485 : ℕ), (⟨1, 1, 0⟩ : JacPoint)) =
      ((⟨0, 2689029553895924617102114627414054060569846832273982327818254908230399719881432357186901819832554511885365983094682, 2402350491294587187090482282513598136643648003187528590355873887393033005174086006608942547286700244845097558700918⟩ : JacPoint), (8353516859464449352 : ℕ), (⟨1, 1, 0⟩ : JacPoint)) := by decide
  have h4 : jacIter 64 ((⟨0, 2689029553895924617102114627414054060569846832273982327818254908230399719881432357186901819832554511885365983094682, 2402350491294587187090482282513598136643648003187528590355873887393033005174086006608942547286700244845097558700918⟩ : JacPoint), (8353516859464449352 : ℕ), (⟨1, 1, 0⟩ : JacPoint)) =
      ((⟨0, 1601071594500274098461152659657009130185639727421484276500831905758149940631867854714276839122475633134824351383561, 3625230243420226741333505649081197349861125326009132268959805472619824983386541780284372858471317992279131869794531⟩ : JacPoint), (0 : ℕ), (⟨0, 84989129724241959673757376284959465537144321428499477751149225372986803791788140376868223122743537424718551558694, 3006952517858601717049641677929689109662852512916622603672999831549207319455320106157639722005225808357408419761768⟩ : JacPoint)) := by decide
  have hall : jacIter 256 (jacOfAffine ⟨((0 : ℕ) : Fq), ((2 : ℕ) : Fq), false⟩, rN, jacZero) =
      ((⟨0, 1601071594500274098461152659657009130185639727421484276500831905758149940631867854714276839122475633134824351383561, 3625230243420226741333505649081197349861125326009132268959805472619824983386541780284372858471317992279131869794531⟩ : JacPoint), (0 : ℕ), (⟨0, 84989129724241959673757376284959465537144321428499477751149225372986803791788140376868223122743537424718551558694, 3006952517858601717049641677929689109662852512916622603672999831549207319455320106157639722005225808357408419761768⟩ : JacPoint)) := by
    rw [show (256 : ℕ) = 192 + 64 from by norm_num, jacIter_add,
      show (192 : ℕ) = 128 + 64 from by norm_num, jacIter_add,
      show (128 : ℕ) = 64 + 64 from by norm_num, jacIter_add, h1, h2, h3, h4]
  rw [is_in_correct_subgroup, hall]
  decide

/-- Unfolding of `parse_g1` once the hex layer has produced the byte
vector. -/
lemma parse_g1_ok_bytes (hex : String) (bytes : List ℕ)
    (hh : parse_hex 48 hex = .ok bytes) :
    parse_g1 hex = parse_g1_bytes bytes := by
  unfold parse_g1
  rw [hh]

/-- Unfolding of `parse_g1_bytes` on a nonempty byte list, with the
head/tail projections reduced. -/
lemma parse_g1_bytes_cons (b0 : ℕ) (bs : List ℕ) :
    parse_g1_bytes (b0 :: bs) =
      (if qN ≤ beBytes ((b0 % 32) :: bs) then .error .InvalidXField
       else if b0 &&& 0x80 = 0 then .error .NotCompressed
       else if b0 &&& 0x40 ≠ 0 then
         if b0 &&& 0x20 ≠ 0 ∨ ((beBytes ((b0 % 32) :: bs) : ℕ) : Fq) ≠ 0 then
           .error .InvalidInfinity
         else .ok G1Affine.zero
       else parse_g1_point b0 (beBytes ((b0 % 32) :: bs))) := rfl

set_option maxRecDepth 4000 in
/-- Decoding "0x80" followed by 47 zero bytes: x = 0 yields the on-curve
point (0, 2) of order 3, which fails the subgroup check, so the result
is `InvalidSubgroup` (not `InvalidXCoordinate`). -/
lemma parse_g1_z80 :
    parse_g1 "0x800000000000000000000000000000000000000000000000000000000000000000000000000000000000000000000000" =
      .error .InvalidSubgroup := by
  have hh : parse_hex 48 "0x800000000000000000000000000000000000000000000000000000000000000000000000000000000000000000000000" =
      .ok (128 :: List.replicate 47 0) := by decide
  rw [parse_g1_ok_bytes _ _ hh, parse_g1_bytes_cons]
  have hx : beBytes ((128 % 32) :: List.replicate 47 0) = 0 := by decide
  simp only [hx]
  rw [if_neg (by decide), if_neg (by decide), if_neg (by decide)]
  unfold parse_g1_point
  have hga : (decide ((128 &&& 0x20 : ℕ) ≠ 0)) = false := by decide
  rw [hga]
  have hpt : get_point_from_x ((0 : ℕ) : Fq) false =
      some ⟨((0 : ℕ) : Fq), ((2 : ℕ) : Fq), false⟩ := by decide
  rw [hpt]
  show (if is_in_correct_subgroup (⟨((0 : ℕ) : Fq), ((2 : ℕ) : Fq), false⟩ : G1Affine) = false
      then (.error .InvalidSubgroup : Except ParseError G1Affine)
      else .ok ⟨((0 : ℕ) : Fq), ((2 : ℕ) : Fq), false⟩) = .error .InvalidSubgroup
  rw [if_pos z80_subgroup_reject]


set_option maxRecDepth 4000 in
/-- C8 (amended): G1 decoding handles the infinity flag as follows:
decoding "0xc0" followed by 47 zero bytes yields the identity point; any
well-formed 48-byte compressed encoding with the infinity flag set
together with either the larger-root flag set or a nonzero x-coordinate
is rejected with InvalidInfinity; and decoding "0x80" followed by 47
zero bytes fails with InvalidSubgroup (x = 0 gives the on-curve order-3
point (0, 2), which is rejected by the subgroup check), not with
InvalidXCoordinate. -/
theorem C8_parse_g1_infinity_spec :
    (parse_g1 "0xc00000000000000000000000000000000000000000000000000000000000000000000000000000000000000000000000" = .ok G1Affine.zero) ∧
    (∀ (hex : String) (b0 : ℕ) (bs : List ℕ),
      parse_hex 48 hex = .ok (b0 :: bs) →
      beBytes ((b0 % 32) :: bs) < qN →
      b0 &&& 0x80 ≠ 0 →
      b0 &&& 0x40 ≠ 0 →
      (b0 &&& 0x20 ≠ 0 ∨ ((beBytes ((b0 % 32) :: bs) : ℕ) : Fq) ≠ 0) →
      parse_g1 hex = .error .InvalidInfinity) ∧
    (parse_g1 "0x800000000000000000000000000000000000000000000000000000000000000000000000000000000000000000000000" = .error .InvalidSubgroup) := by
  refine ⟨by decide, ?_, parse_g1_z80⟩
  intro hex b0 bs hh hq hc hi hflag
  rw [parse_g1_ok_bytes _ _ hh, parse_g1_bytes_cons]
  rw [if_neg (not_le.mpr hq), if_neg hc, if_pos hi, if_pos hflag]

/-- Counterexample for C8: decoding "0x80" followed by 47 zero bytes
does NOT fail with InvalidXCoordinate (as the claim states); it fails
with InvalidSubgroup, because x = 0 does yield a valid curve point
(0, 2), which merely lies outside the prime-order subgroup. -/
theorem C8_parse_g1_counterexample :
    parse_g1 "0x800000000000000000000000000000000000000000000000000000000000000000000000000000000000000000000000" = .error .InvalidSubgroup ∧
    parse_g1 "0x800000000000000000000000000000000000000000000000000000000000000000000000000000000000000000000000" ≠ .error .InvalidXCoordinate := by
  refine ⟨parse_g1_z80, ?_⟩
  rw [parse_g1_z80]
  decide

set_option maxRecDepth 4000 in
/-- Witness for C8: an encoding with both the infinity and larger-root
flags set is rejected with InvalidInfinity. -/
theorem C8_parse_g1_infinity_spec_witness :
    parse_g1 "0xe00000000000000000000000000000000000000000000000000000000000000000000000000000000000000000000000" = .error .InvalidInfinity :=
  C8_parse_g1_infinity_spec.2.1 "0xe00000000000000000000000000000000000000000000000000000000000000000000000000000000000000000000000" 224 (List.replicate 47 0)
    (by decide) (by decide) (by decide) (by decide) (Or.inl (by decide))

end KZG
